import Mathlib

/-
  Verification development for the rating-prediction library (src/algo.py).

  Shallow embedding conventions:
  - the dense rating matrix is a function rm : ℕ → ℕ → ℕ with 0 meaning
    "unrated"; bounds lastXi, lastYi are passed explicitly;
  - adjacency lists xr, yr : ℕ → List (ℕ × ℕ) hold (partner, rating) pairs;
  - numpy floats become ℝ (ℚ where the code stays in exact arithmetic and we
    want decidable evaluation); np.sqrt is Real.sqrt;
  - the Python float value inf returned by getParall is modelled by the none
    case of Option ℝ, with the comparison inf < c being False for every c;
  - Python round (round half to even) is pyRound below;
  - np.average(xs, weights) is sum (x*w) / sum w, and the ZeroDivisionError
    branch is an explicit test sum w = 0.
-/

/-- Python 3 round on a float, truncated to int by int(round(x)):
rounds to the nearest integer, ties going to the even integer. -/
noncomputable def pyRound (x : ℝ) : ℤ :=
  if x - ⌊x⌋ < 1/2 then ⌊x⌋
  else if 1/2 < x - ⌊x⌋ then ⌊x⌋ + 1
  else if ⌊x⌋ % 2 = 0 then ⌊x⌋ else ⌊x⌋ + 1

/-- Dot product of two float lists (numpy vectors). -/
noncomputable def dotL (u v : List ℝ) : ℝ :=
  (List.zipWith (fun a b => a * b) u v).sum

/-- Euclidean length of a float list. -/
noncomputable def norm2 (u : List ℝ) : ℝ := Real.sqrt (dotL u u)

/-- scipy.spatial.distance.cosine: one minus the cosine of the angle. -/
noncomputable def cosineDist (u v : List ℝ) : ℝ :=
  1 - dotL u v / (norm2 u * norm2 v)

/-- np.average(values, weights): weighted mean, sum of products over sum of
weights.  The caller is responsible for the zero-denominator case, which in
numpy raises ZeroDivisionError. -/
noncomputable def npAverageW (values weights : List ℝ) : ℝ :=
  (List.zipWith (fun a b => a * b) values weights).sum / weights.sum

/- ------------------------------------------------------------------
   AlgoUsingCosineSim.simCos (src/algo.py lines 163-178)
   ------------------------------------------------------------------ -/

/-- Partners y in [1, lastYi] rated by both a and b
(the list Yab of simCos). -/
def Yab (rm : ℕ → ℕ → ℕ) (lastYi a b : ℕ) : List ℕ :=
  (List.range' 1 lastYi).filter (fun y => decide (0 < rm a y ∧ 0 < rm b y))

/-- AlgoUsingCosineSim.simCos: 0 when fewer than two common partners,
otherwise 1 - cosine distance of the two rating profiles restricted to the
common support. -/
noncomputable def simCos (rm : ℕ → ℕ → ℕ) (lastYi a b : ℕ) : ℝ :=
  if (Yab rm lastYi a b).length < 2 then 0
  else 1 - cosineDist
    ((Yab rm lastYi a b).map (fun y => (rm a y : ℝ)))
    ((Yab rm lastYi a b).map (fun y => (rm b y : ℝ)))

/- ------------------------------------------------------------------
   AlgoUsingAnalogy (src/algo.py lines 219-248)
   ------------------------------------------------------------------ -/

/-- AlgoUsingAnalogy.isSolvable: the analogical equation is solvable. -/
def AlgoUsingAnalogy.isSolvable (ra rb rc : ℕ) : Bool :=
  ra == rb || ra == rc

/-- AlgoUsingAnalogy.solve: solution rc - ra + rb of the analogical
equation. -/
def AlgoUsingAnalogy.solve (ra rb rc : ℤ) : ℤ := rc - ra + rb

/-- AlgoUsingAnalogy.tvA: truth value of the analogy A(ra, rb, rc, rd) after
rescaling each rating from [1,5] into [0,1].  Exact rational arithmetic in
the source (only subtractions, divisions by 4, abs, max), so modelled in ℚ. -/
def AlgoUsingAnalogy.tvA (ra rb rc rd : ℚ) : ℚ :=
  let a := (ra - 1) / 4
  let b := (rb - 1) / 4
  let c := (rc - 1) / 4
  let d := (rd - 1) / 4
  if (a ≥ b ∧ c ≥ d) ∨ (a ≤ b ∧ c ≤ d) then 1 - |(a - b) - (c - d)|
  else 1 - max |a - b| |c - d|

/- ------------------------------------------------------------------
   Algo.makeStats (src/algo.py lines 87-105)
   ------------------------------------------------------------------ -/

/-- Count of exact hits among the accumulated (estimate, actual) pairs. -/
noncomputable def nOK (preds : List (ℝ × ℝ)) : ℕ :=
  (preds.filter (fun p => decide (p.1 = p.2))).length

/-- Count of misses among the accumulated (estimate, actual) pairs. -/
noncomputable def nKO (preds : List (ℝ × ℝ)) : ℕ :=
  (preds.filter (fun p => decide (¬ p.1 = p.2))).length

/-- Sum of absolute errors |r0 - est| over the accumulated pairs. -/
noncomputable def sumAbsErr (preds : List (ℝ × ℝ)) : ℝ :=
  (preds.map (fun p => |p.2 - p.1|)).sum

/-- Algo.makeStats assignment to self.mae:
np.sqrt(sumAbsErr / (nOK + nKO)). -/
noncomputable def maeStat (preds : List (ℝ × ℝ)) : ℝ :=
  Real.sqrt (sumAbsErr preds / (nOK preds + nKO preds))

/-- Spec-named comparison point: the standard mean absolute error,
sum of absolute errors divided by the number of pairs (no square root). -/
noncomputable def meanAbsErrSpec (preds : List (ℝ × ℝ)) : ℝ :=
  sumAbsErr preds / preds.length

/- ------------------------------------------------------------------
   AlgoWithBaseline, shrinkage branch (src/algo.py lines 396-412)
   ------------------------------------------------------------------ -/

/-- Global mean of all strictly positive entries of the matrix self.rm,
rows 0..lastXi and columns 0..lastYi
(np.mean over [r for l in self.rm for r in l if r > 0]). -/
def muOf (rm : ℕ → ℕ → ℕ) (lastXi lastYi : ℕ) : ℚ :=
  let cells := (((List.range (lastXi + 1)).map
    (fun x => (List.range (lastYi + 1)).map (fun y => rm x y))).flatten).filter
    (fun r => decide (0 < r))
  ((cells.map (fun r => (r : ℚ))).sum) / cells.length

/-- Regularization constant lambda2 used for the x-axis biases:
10 when user based (self.ub), 25 when movie based. -/
def shrinkLambda2 (ub : Bool) : ℚ := if ub then 10 else 25

/-- Regularization constant lambda3 used for the y-axis biases:
25 when user based (self.ub), 10 when movie based. -/
def shrinkLambda3 (ub : Bool) : ℚ := if ub then 25 else 10

/-- Shrinkage-fitted bias for entity x on the primary axis:
sum of deviations from mu over the ratings of x, divided by
(lambda2 + number of ratings). -/
def shrinkXBiases (ub : Bool) (mu : ℚ) (xr : ℕ → List (ℕ × ℕ)) (x : ℕ) : ℚ :=
  let devX := (xr x).map (fun p => (p.2 : ℚ) - mu)
  devX.sum / (shrinkLambda2 ub + devX.length)

/-- Shrinkage-fitted bias for entity y on the secondary axis:
sum of deviations from mu over the ratings of y, divided by
(lambda3 + number of ratings). -/
def shrinkYBiases (ub : Bool) (mu : ℚ) (yr : ℕ → List (ℕ × ℕ)) (y : ℕ) : ℚ :=
  let devY := (yr y).map (fun p => (p.2 : ℚ) - mu)
  devY.sum / (shrinkLambda3 ub + devY.length)

/- ------------------------------------------------------------------
   AlgoRandom (src/algo.py lines 113-130)
   ------------------------------------------------------------------ -/

/-- Frequency counts computed by AlgoRandom over the loops
for x in range(1, lastXi), for y in range(1, lastYi): both loops EXCLUDE
the last index (everywhere else the file iterates range(1, last + 1)).
For a rating value v in 1..5 this is the number of cells in that truncated
region holding v. -/
def randomFqs (rm : ℕ → ℕ → ℕ) (lastXi lastYi v : ℕ) : ℕ :=
  ((List.range' 1 (lastXi - 1)).map (fun x =>
    ((List.range' 1 (lastYi - 1)).filter (fun y => decide (rm x y = v))).length)).sum

/-- Probability mass the fitted rv_discrete assigns to rating value v:
the truncated-region count of v over the total truncated-region count. -/
def randomProbs (rm : ℕ → ℕ → ℕ) (lastXi lastYi v : ℕ) : ℚ :=
  (randomFqs rm lastXi lastYi v : ℚ) /
    (((List.range' 1 5).map (fun w => randomFqs rm lastXi lastYi w)).sum : ℚ)

/-- Empirical frequency of rating value v among ALL nonzero entries of the
training matrix, x in 1..lastXi and y in 1..lastYi (what the spec asks for). -/
def empiricalFreq (rm : ℕ → ℕ → ℕ) (lastXi lastYi v : ℕ) : ℚ :=
  (((List.range' 1 lastXi).map (fun x =>
    ((List.range' 1 lastYi).filter (fun y => decide (rm x y = v))).length)).sum : ℚ) /
  (((List.range' 1 lastXi).map (fun x =>
    ((List.range' 1 lastYi).filter (fun y => decide (0 < rm x y))).length)).sum : ℚ)

/- ------------------------------------------------------------------
   Concrete test fixtures
   ------------------------------------------------------------------ -/

/-- Fixture: 2 x 1 matrix (self.rm orientation) with ratings 1 and 5. -/
def rmFix1 : ℕ → ℕ → ℕ := fun x y =>
  if x = 1 ∧ y = 1 then 1 else if x = 2 ∧ y = 1 then 5 else 0

/-- Fixture adjacency list for the primary axis of rmFix1. -/
def xrFix1 : ℕ → List (ℕ × ℕ) := fun x =>
  if x = 1 then [(1, 1)] else if x = 2 then [(1, 5)] else []

/-- Fixture: 2 x 2 matrix whose nonzero entries are rm[1,1] = 1 and
rm[1,2] = 5; the entry at column lastYi = 2 sits in the region skipped by
the AlgoRandom counting loops. -/
def rmFix2 : ℕ → ℕ → ℕ := fun x y =>
  if x = 1 ∧ y = 1 then 1 else if x = 1 ∧ y = 2 then 5 else 0

/-- Fixture: the everywhere-unrated matrix. -/
def rmFix0 : ℕ → ℕ → ℕ := fun _ _ => 0

/- ------------------------------------------------------------------
   AlgoBasicCollaborative (src/algo.py lines 132-217)
   ------------------------------------------------------------------ -/

/-- State built by the AlgoBasicCollaborative constructor chain.  The field
xrSlot records the value that ends up in self.xr. -/
structure AlgoBasicCollaborative where
  ub : Bool
  rm : ℕ → ℕ → ℕ
  lastXi : ℕ
  lastYi : ℕ
  xrSlot : Bool
  k : ℕ

/-- Constructor chain AlgoBasicCollaborative.__init__ →
AlgoUsingCosineSim.__init__(rm, movieBased) → Algo.__init__(self, rm, movieBased).
The inner call passes movieBased positionally, so it lands in the ur slot of
Algo.__init__ while the real movieBased keeps its default False.
Hence self.ub = not False = True, the user-based branch runs:
self.rm = rm.T, lastXi = lastUi, lastYi = lastMi, self.xr = ur (the flag). -/
def AlgoBasicCollaborative.build (rm : ℕ → ℕ → ℕ) (lastUi lastMi : ℕ)
    (movieBased : Bool) : AlgoBasicCollaborative :=
  { ub := !false
  , rm := fun x y => rm y x
  , lastXi := lastUi
  , lastYi := lastMi
  , xrSlot := movieBased
  , k := 40 }

/-- constructSimMat, recomputation branch: cell (i, j) holds
simCos(i, j) over self.rm. -/
noncomputable def AlgoBasicCollaborative.simMat (s : AlgoBasicCollaborative)
    (i j : ℕ) : ℝ :=
  simCos s.rm s.lastYi i j

/-- Candidates of the estimate method: all x in [1, lastXi] with
self.rm[x, y0] > 0. -/
def AlgoBasicCollaborative.candX (s : AlgoBasicCollaborative) (y0 : ℕ) : List ℕ :=
  (List.range' 1 s.lastXi).filter (fun x => decide (0 < s.rm x y0))

/-- The list simX0 of (candidate, similarity to x0) pairs. -/
noncomputable def AlgoBasicCollaborative.simX0 (s : AlgoBasicCollaborative)
    (x0 y0 : ℕ) : List (ℕ × ℝ) :=
  (s.candX y0).map (fun x => (x, s.simMat x0 x))

/-- simX0 sorted by similarity in descending order (Python sorted is a
stable sort; reverse=True flips the comparison, not the list) and truncated
to the first k entries. -/
noncomputable def AlgoBasicCollaborative.topK (s : AlgoBasicCollaborative)
    (x0 y0 : ℕ) : List (ℕ × ℝ) :=
  ((s.simX0 x0 y0).mergeSort (fun a b => decide (b.2 ≤ a.2))).take s.k

/-- AlgoBasicCollaborative.estimate: 0 when there is no candidate, else the
rounded similarity-weighted average of the top-k candidate ratings, with the
ZeroDivisionError of np.average (weights summing to zero) caught as 0. -/
noncomputable def AlgoBasicCollaborative.estimate (s : AlgoBasicCollaborative)
    (u0 m0 : ℕ) : ℤ :=
  let x0 := if s.ub then u0 else m0
  let y0 := if s.ub then m0 else u0
  if (s.simX0 x0 y0).isEmpty then 0
  else
    let simNeighboors := (s.topK x0 y0).map (fun p => p.2)
    let ratNeighboors := (s.topK x0 y0).map (fun p => (s.rm p.1 y0 : ℝ))
    if simNeighboors.sum = 0 then 0
    else pyRound (npAverageW ratNeighboors simNeighboors)

/- ------------------------------------------------------------------
   AlgoNeighborhoodWithBaseline (src/algo.py lines 430-461)
   ------------------------------------------------------------------ -/

/-- State of AlgoNeighborhoodWithBaseline after construction: the fitted
global mean and bias vectors, the similarity matrix, the adjacency list of
the secondary axis, and the orientation flag (this constructor forwards
movieBased correctly, so ub = not movieBased). -/
structure AlgoNeighborhoodWithBaseline where
  ub : Bool
  mu : ℝ
  xBiases : ℕ → ℝ
  yBiases : ℕ → ℝ
  simMat : ℕ → ℕ → ℝ
  yr : ℕ → List (ℕ × ℕ)

/-- AlgoWithBaseline.getBaseline: mu + xBiases[x] + yBiases[y], unclamped. -/
noncomputable def AlgoNeighborhoodWithBaseline.getBaseline
    (s : AlgoNeighborhoodWithBaseline) (x y : ℕ) : ℝ :=
  s.mu + s.xBiases x + s.yBiases y

/-- The list simX0 of (x, similarity to x0, rating) triples over the raters
of y0. -/
noncomputable def AlgoNeighborhoodWithBaseline.simX0
    (s : AlgoNeighborhoodWithBaseline) (x0 y0 : ℕ) : List (ℕ × ℝ × ℕ) :=
  (s.yr y0).map (fun p => (p.1, s.simMat x0 p.1, p.2))

/-- simX0 sorted by similarity (key x[1] of the triple) descending and
truncated to the first k = 40 entries. -/
noncomputable def AlgoNeighborhoodWithBaseline.topK
    (s : AlgoNeighborhoodWithBaseline) (x0 y0 : ℕ) : List (ℕ × ℝ × ℕ) :=
  ((s.simX0 x0 y0).mergeSort (fun a b => decide (b.2.1 ≤ a.2.1))).take 40

/-- AlgoNeighborhoodWithBaseline.estimate: getBaseline(x0, y0) plus the
similarity-weighted average of the neighbors deviations from their own
baselines; the early return (no rater of y0) and the caught
ZeroDivisionError both leave the estimate at the baseline alone. -/
noncomputable def AlgoNeighborhoodWithBaseline.estimate
    (s : AlgoNeighborhoodWithBaseline) (u0 m0 : ℕ) : ℝ :=
  let x0 := if s.ub then u0 else m0
  let y0 := if s.ub then m0 else u0
  if (s.simX0 x0 y0).isEmpty then s.getBaseline x0 y0
  else
    let simNeighboors := (s.topK x0 y0).map (fun p => p.2.1)
    let diffRatNeighboors :=
      (s.topK x0 y0).map (fun p => (p.2.2 : ℝ) - s.getBaseline p.1 y0)
    if simNeighboors.sum = 0 then s.getBaseline x0 y0
    else s.getBaseline x0 y0 + npAverageW diffRatNeighboors simNeighboors

/- ------------------------------------------------------------------
   AlgoKNNBelkor (src/algo.py lines 463-513)
   ------------------------------------------------------------------ -/

/-- State of AlgoKNNBelkor after training: mean, biases, the learned
interpolation weight matrix, the secondary-axis adjacency list and the
orientation flag. -/
structure AlgoKNNBelkor where
  ub : Bool
  mu : ℝ
  xBiases : ℕ → ℝ
  yBiases : ℕ → ℝ
  weights : ℕ → ℕ → ℝ
  yr : ℕ → List (ℕ × ℕ)

/-- AlgoWithBaseline.getBaseline for the Belkor state. -/
noncomputable def AlgoKNNBelkor.getBaseline (s : AlgoKNNBelkor) (x y : ℕ) : ℝ :=
  s.mu + s.xBiases x + s.yBiases y

/-- AlgoKNNBelkor.estimate: the weighted sum of the co-raters baseline
deviations, scaled by 1/sqrt(number of raters of y0), plus the baseline,
then clamped by est = min(5, est); est = max(1, est). -/
noncomputable def AlgoKNNBelkor.estimate (s : AlgoKNNBelkor) (u0 m0 : ℕ) : ℝ :=
  let x0 := if s.ub then u0 else m0
  let y0 := if s.ub then m0 else u0
  let est0 := ((s.yr y0).map
    (fun p => ((p.2 : ℝ) - s.getBaseline p.1 y0) * s.weights x0 p.1)).sum
  let est1 := est0 / Real.sqrt ((s.yr y0).length)
  let est2 := est1 + s.getBaseline x0 y0
  max 1 (min 5 est2)

/- ------------------------------------------------------------------
   AlgoGilles (src/algo.py lines 300-364)
   ------------------------------------------------------------------ -/

/-- State of AlgoGilles: the oriented matrix and both adjacency lists. -/
structure AlgoGilles where
  ub : Bool
  rm : ℕ → ℕ → ℕ
  xr : ℕ → List (ℕ × ℕ)
  yr : ℕ → List (ℕ × ℕ)

/-- The list Yabc0 of getParall: partners y of xa such that xb, xc and x0
also rated y (Python truthiness: self.rm[xb, y] nonzero, etc.). -/
def AlgoGilles.Yabc0 (s : AlgoGilles) (xa xb xc x0 : ℕ) : List ℕ :=
  ((s.xr xa).filter (fun p =>
    decide (s.rm xb p.1 ≠ 0 ∧ s.rm xc p.1 ≠ 0 ∧ s.rm x0 p.1 ≠ 0))).map
    (fun p => p.1)

/-- np.linalg.norm((xaRs - xbRs) - (xcRs - x0Rs)) over the common support:
square root of the sum of squared per-item differences. -/
noncomputable def AlgoGilles.pNorm (s : AlgoGilles) (xa xb xc x0 : ℕ) : ℝ :=
  Real.sqrt (((s.Yabc0 xa xb xc x0).map (fun y =>
    (((s.rm xa y : ℝ) - (s.rm xb y : ℝ)) -
     ((s.rm xc y : ℝ) - (s.rm x0 y : ℝ))) ^ 2)).sum)

/-- AlgoGilles.getParall: (0, inf) when there is no common rating, else the
count of common items and the norm; float inf is modelled as none. -/
noncomputable def AlgoGilles.getParall (s : AlgoGilles) (xa xb xc x0 : ℕ) :
    ℕ × Option ℝ :=
  if (s.Yabc0 xa xb xc x0).isEmpty then (0, none)
  else ((s.Yabc0 xa xb xc x0).length, some (s.pNorm xa xb xc x0))

/-- One iteration of the AlgoGilles sampling loop on the sampled triple
((xa, ra), (xb, rb), (xc, rc)): when the three entities are pairwise
distinct and the equation is solvable, the trial is kept exactly when
nrm < 1.5 * sqrt(nYabc0); the inf norm (none) compares False with every
finite bound, as in the source where float inf < 1.5*sqrt(n) is False. -/
noncomputable def AlgoGilles.trialCandidate (s : AlgoGilles) (x0 : ℕ)
    (t : (ℕ × ℕ) × (ℕ × ℕ) × (ℕ × ℕ)) : Option (ℤ × ℝ × ℕ) :=
  let xa := t.1.1
  let ra := t.1.2
  let xb := t.2.1.1
  let rb := t.2.1.2
  let xc := t.2.2.1
  let rc := t.2.2.2
  if xa ≠ xb ∧ xb ≠ xc ∧ xa ≠ xc ∧ AlgoUsingAnalogy.isSolvable ra rb rc then
    match s.getParall xa xb xc x0 with
    | (_, none) => none
    | (n, some nrm) =>
      if nrm < 1.5 * Real.sqrt n then
        some (AlgoUsingAnalogy.solve ra rb rc, nrm, n)
      else none
  else none

/-- AlgoGilles.estimate with the 1000 random draws of the loop supplied as
the explicit sample list: impossible (0) when y0 has no rating at all, else
the accepted candidates are collected and the estimate is
int(round(np.average(ratings))), the unweighted rounded mean, or 0 when no
trial was accepted. -/
noncomputable def AlgoGilles.estimate (s : AlgoGilles)
    (samples : List ((ℕ × ℕ) × (ℕ × ℕ) × (ℕ × ℕ))) (u0 m0 : ℕ) : ℤ :=
  let x0 := if s.ub then u0 else m0
  let y0 := if s.ub then m0 else u0
  if (s.yr y0).isEmpty then 0
  else
    let candidates := samples.filterMap (s.trialCandidate x0)
    if candidates.isEmpty then 0
    else pyRound ((candidates.map (fun c => (c.1 : ℝ))).sum / candidates.length)

/-- Fixture: a Gilles state whose secondary adjacency list is empty. -/
def gillesFix : AlgoGilles :=
  { ub := true
  , rm := rmFix0
  , xr := fun _ => []
  , yr := fun _ => [] }

/-- Fixture: a baseline-neighborhood state whose secondary adjacency list is
empty. -/
noncomputable def nbFix : AlgoNeighborhoodWithBaseline :=
  { ub := true
  , mu := 3
  , xBiases := fun _ => 0
  , yBiases := fun _ => 0
  , simMat := fun _ _ => 0
  , yr := fun _ => [] }

/- ==================================================================
   Theorems
   ================================================================== -/

section Helpers

/-- nOK and nKO of makeStats partition the accumulated pairs. -/
theorem nOK_add_nKO (preds : List (ℝ × ℝ)) :
    nOK preds + nKO preds = preds.length := by
  induction preds with
  | nil => rfl
  | cons p l ih =>
    by_cases h : p.1 = p.2 <;>
      simp [nOK, nKO, List.filter_cons, h] at ih ⊢ <;> omega

/-- Membership in the explicit rating-value set gives interval bounds. -/
theorem mem_ratingSet_bounds (q : ℚ) (h : q ∈ ({1, 2, 3, 4, 5} : Set ℚ)) :
    1 ≤ q ∧ q ≤ 5 := by
  simp only [Set.mem_insert_iff, Set.mem_singleton_iff] at h
  rcases h with rfl | rfl | rfl | rfl | rfl <;> norm_num

end Helpers

/- ------------------------------------------------------------------
   Claim C1 (shrinkage regularization constants)
   ------------------------------------------------------------------ -/

/-- Claim C1, counterexample: in the movie-based orientation (ub = false)
the primary-axis bias of entity 2 is NOT the deviation sum divided by
(smaller constant 10 + count); the code divides by 25 + count there. -/
theorem shrinkage_smaller_constant_cex :
    shrinkXBiases false (muOf rmFix1 2 1) xrFix1 2 ≠
      ((xrFix1 2).map (fun p => (p.2 : ℚ) - muOf rmFix1 2 1)).sum /
        (10 + (((xrFix1 2).map (fun p => (p.2 : ℚ) - muOf rmFix1 2 1)).length : ℚ)) := by
  have hcells : ((((List.range (2 + 1)).map
      (fun x => (List.range (1 + 1)).map (fun y => rmFix1 x y))).flatten).filter
      (fun r => decide (0 < r))) = [1, 5] := by decide
  have hmu : muOf rmFix1 2 1 = 3 := by
    rw [muOf, hcells]
    norm_num
  have hxr : xrFix1 2 = [(1, 5)] := rfl
  rw [shrinkXBiases, hmu, hxr]
  simp only [shrinkLambda2, List.map_cons, List.map_nil, List.sum_cons,
    List.sum_nil, List.length_cons, List.length_nil]
  norm_num

/-- Claim C1, amended: the shrinkage constants are tied to the axes by
orientation: the primary (x) axis divides by 10 + count when user based and
by 25 + count when movie based, and the secondary (y) axis uses the other
constant, so the primary axis uses the smaller constant exactly in the
user-based orientation. -/
theorem shrinkage_constants_by_orientation (ub : Bool) (mu : ℚ)
    (xr yr : ℕ → List (ℕ × ℕ)) (x y : ℕ) :
    shrinkXBiases ub mu xr x =
      ((xr x).map (fun p => (p.2 : ℚ) - mu)).sum /
        ((if ub then (10 : ℚ) else 25) +
          (((xr x).map (fun p => (p.2 : ℚ) - mu)).length : ℚ)) ∧
    shrinkYBiases ub mu yr y =
      ((yr y).map (fun p => (p.2 : ℚ) - mu)).sum /
        ((if ub then (25 : ℚ) else 10) +
          (((yr y).map (fun p => (p.2 : ℚ) - mu)).length : ℚ)) :=
  ⟨rfl, rfl⟩

/- ------------------------------------------------------------------
   Claim C2 (makeStats MAE takes a square root)
   ------------------------------------------------------------------ -/

/-- Claim C2: for every non-empty accumulated list, the MAE statistic is the
square root of the mean absolute error, and on the concrete pair list
[(1, 3)] it differs from the plain mean absolute error. -/
theorem makeStats_mae_is_sqrt :
    (∀ preds : List (ℝ × ℝ), preds ≠ [] →
      maeStat preds = Real.sqrt (sumAbsErr preds / preds.length)) ∧
    maeStat [((1 : ℝ), (3 : ℝ))] ≠ meanAbsErrSpec [((1 : ℝ), (3 : ℝ))] := by
  have key : ∀ preds : List (ℝ × ℝ),
      maeStat preds = Real.sqrt (sumAbsErr preds / preds.length) := by
    intro preds
    rw [maeStat, ← Nat.cast_add, nOK_add_nKO]
  refine ⟨fun preds _ => key preds, ?_⟩
  rw [key]
  have h1 : sumAbsErr [((1 : ℝ), (3 : ℝ))] = 2 := by
    simp [sumAbsErr]
    norm_num
  have h2 : meanAbsErrSpec [((1 : ℝ), (3 : ℝ))] = 2 := by
    rw [meanAbsErrSpec, h1]
    norm_num
  rw [h1, h2]
  have hlt : Real.sqrt (2 / (1 : ℕ)) < 2 := by
    have h4 : Real.sqrt (2 / (1 : ℕ)) = Real.sqrt 2 := by norm_num
    rw [h4]
    have := Real.sqrt_lt_sqrt (by norm_num : (0 : ℝ) ≤ 2) (by norm_num : (2 : ℝ) < 4)
    rwa [show (4 : ℝ) = 2 ^ 2 by norm_num, Real.sqrt_sq (by norm_num : (0 : ℝ) ≤ 2)] at this
  exact ne_of_lt hlt

/-- Claim C2 witness at the concrete list [(1, 3)]. -/
theorem makeStats_mae_is_sqrt_witness :
    maeStat [((1 : ℝ), (3 : ℝ))] =
      Real.sqrt (sumAbsErr [((1 : ℝ), (3 : ℝ))] / ([((1 : ℝ), (3 : ℝ))] : List (ℝ × ℝ)).length) :=
  makeStats_mae_is_sqrt.1 [((1 : ℝ), (3 : ℝ))] (by simp)

/- ------------------------------------------------------------------
   Claim C5 (Belkor estimate clamped into [1, 5])
   ------------------------------------------------------------------ -/

/-- Claim C5: for every trained state and every query, the
LearnedWeightPredictor estimate is in [1, 5] and is never the impossible
sentinel 0. -/
theorem belkor_estimate_clamped (s : AlgoKNNBelkor) (u0 m0 : ℕ) :
    1 ≤ s.estimate u0 m0 ∧ s.estimate u0 m0 ≤ 5 ∧ s.estimate u0 m0 ≠ 0 := by
  simp only [AlgoKNNBelkor.estimate]
  refine ⟨le_max_left _ _, max_le (by norm_num) (min_le_left _ _),
    (lt_of_lt_of_le one_pos (le_max_left _ _)).ne'⟩

/- ------------------------------------------------------------------
   Claim C7 (AlgoRandom distribution, off-by-one region)
   ------------------------------------------------------------------ -/

/-- Claim C7, failing input: on the 2 x 2 fixture whose rating 5 sits in the
column skipped by the counting loops, the fitted distribution gives rating 5
probability 0 while its empirical frequency among all nonzero entries is
1/2. -/
theorem algoRandom_skips_last_row_col :
    randomProbs rmFix2 2 2 5 = 0 ∧ empiricalFreq rmFix2 2 2 5 = 1 / 2 ∧
      randomProbs rmFix2 2 2 5 ≠ empiricalFreq rmFix2 2 2 5 := by
  have h1 : randomFqs rmFix2 2 2 5 = 0 := by decide
  have h2 : ((List.range' 1 5).map (fun w => randomFqs rmFix2 2 2 w)).sum = 1 := by
    decide
  have h3 : ((List.range' 1 2).map (fun x =>
      ((List.range' 1 2).filter (fun y => decide (rmFix2 x y = 5))).length)).sum = 1 := by
    decide
  have h4 : ((List.range' 1 2).map (fun x =>
      ((List.range' 1 2).filter (fun y => decide (0 < rmFix2 x y))).length)).sum = 2 := by
    decide
  have hp : randomProbs rmFix2 2 2 5 = 0 := by
    rw [randomProbs, h1, h2]
    norm_num
  have he : empiricalFreq rmFix2 2 2 5 = 1 / 2 := by
    rw [empiricalFreq, h3, h4]
    norm_num
  refine ⟨hp, he, ?_⟩
  rw [hp, he]
  norm_num

/- ------------------------------------------------------------------
   Claim C8 (similarity needs two common partners)
   ------------------------------------------------------------------ -/

/-- Claim C8: whenever two entities share fewer than two commonly rated
partners, their cosine similarity is 0. -/
theorem simCos_small_common_zero (rm : ℕ → ℕ → ℕ) (lastYi a b : ℕ)
    (h : (Yab rm lastYi a b).length < 2) : simCos rm lastYi a b = 0 := by
  rw [simCos, if_pos h]

/-- Claim C8 witness: on the everywhere-unrated fixture, entities 1 and 2
share no partner and their similarity evaluates to 0. -/
theorem simCos_small_common_zero_witness : simCos rmFix0 2 1 2 = 0 :=
  simCos_small_common_zero rmFix0 2 1 2 (by decide)

/- ------------------------------------------------------------------
   Claim C9 (tvA lands in [0, 1])
   ------------------------------------------------------------------ -/

/-- Claim C9: for all four ratings in {1, 2, 3, 4, 5}, the truth value tvA,
computed on the ratings rescaled into [0, 1], lies in [0, 1]. -/
theorem tvA_in_unit_interval (ra rb rc rd : ℚ)
    (ha : ra ∈ ({1, 2, 3, 4, 5} : Set ℚ)) (hb : rb ∈ ({1, 2, 3, 4, 5} : Set ℚ))
    (hc : rc ∈ ({1, 2, 3, 4, 5} : Set ℚ)) (hd : rd ∈ ({1, 2, 3, 4, 5} : Set ℚ)) :
    0 ≤ AlgoUsingAnalogy.tvA ra rb rc rd ∧ AlgoUsingAnalogy.tvA ra rb rc rd ≤ 1 := by
  obtain ⟨ha1, ha5⟩ := mem_ratingSet_bounds ra ha
  obtain ⟨hb1, hb5⟩ := mem_ratingSet_bounds rb hb
  obtain ⟨hc1, hc5⟩ := mem_ratingSet_bounds rc hc
  obtain ⟨hd1, hd5⟩ := mem_ratingSet_bounds rd hd
  rw [AlgoUsingAnalogy.tvA]
  have hA : 0 ≤ (ra - 1) / 4 ∧ (ra - 1) / 4 ≤ 1 := by constructor <;> linarith
  have hB : 0 ≤ (rb - 1) / 4 ∧ (rb - 1) / 4 ≤ 1 := by constructor <;> linarith
  have hC : 0 ≤ (rc - 1) / 4 ∧ (rc - 1) / 4 ≤ 1 := by constructor <;> linarith
  have hD : 0 ≤ (rd - 1) / 4 ∧ (rd - 1) / 4 ≤ 1 := by constructor <;> linarith
  obtain ⟨ha0, ha1q⟩ := hA
  obtain ⟨hb0, hb1q⟩ := hB
  obtain ⟨hc0, hc1q⟩ := hC
  obtain ⟨hd0, hd1q⟩ := hD
  set a := (ra - 1) / 4
  set b := (rb - 1) / 4
  set c := (rc - 1) / 4
  set d := (rd - 1) / 4
  split_ifs with h
  · have habs : |a - b - (c - d)| ≤ 1 := by
      rcases h with ⟨h1, h2⟩ | ⟨h1, h2⟩ <;>
        exact abs_le.2 ⟨by linarith, by linarith⟩
    have habs0 : 0 ≤ |a - b - (c - d)| := abs_nonneg _
    constructor <;> linarith
  · have h1 : |a - b| ≤ 1 := abs_le.2 ⟨by linarith, by linarith⟩
    have h2 : |c - d| ≤ 1 := abs_le.2 ⟨by linarith, by linarith⟩
    have h0 : 0 ≤ max |a - b| |c - d| :=
      le_trans (abs_nonneg _) (le_max_left _ _)
    have hm : max |a - b| |c - d| ≤ 1 := max_le h1 h2
    constructor <;> linarith

/-- Claim C9 witness at the concrete ratings (1, 2, 3, 4). -/
theorem tvA_in_unit_interval_witness :
    0 ≤ AlgoUsingAnalogy.tvA 1 2 3 4 ∧ AlgoUsingAnalogy.tvA 1 2 3 4 ≤ 1 :=
  tvA_in_unit_interval 1 2 3 4 (by simp) (by simp) (by simp) (by simp)

/- ------------------------------------------------------------------
   Claim C3 (movieBased flag lost by AlgoUsingCosineSim.__init__)
   ------------------------------------------------------------------ -/

/-- Claim C3: the constructed plain neighborhood predictor is user oriented
for both values of movieBased (the flag lands in the ur slot of
Algo.__init__, never in its movieBased slot), and its estimates coincide for
movieBased = true and movieBased = false on every matrix and query. -/
theorem basicCollab_ignores_movieBased (rm : ℕ → ℕ → ℕ) (lastUi lastMi : ℕ) :
    (∀ mb : Bool, (AlgoBasicCollaborative.build rm lastUi lastMi mb).ub = true) ∧
    (∀ u0 m0 : ℕ,
      (AlgoBasicCollaborative.build rm lastUi lastMi true).estimate u0 m0 =
        (AlgoBasicCollaborative.build rm lastUi lastMi false).estimate u0 m0) :=
  ⟨fun _ => rfl, fun _ _ => rfl⟩

/- ------------------------------------------------------------------
   Helper lemmas for the weighted-average bounds
   ------------------------------------------------------------------ -/

/-- Sum of a zipWith product of two maps over the same list. -/
theorem zipWith_mul_map_sum {α : Type} (l : List α) (f g : α → ℝ) :
    (List.zipWith (fun a b => a * b) (l.map f) (l.map g)).sum =
      (l.map (fun p => f p * g p)).sum := by
  induction l with
  | nil => rfl
  | cons a l ih => simp [ih]

/-- Sums of mapped nonnegative values are nonnegative. -/
theorem sum_map_nonneg {α : Type} (l : List α) (g : α → ℝ)
    (h : ∀ p ∈ l, 0 ≤ g p) : 0 ≤ (l.map g).sum :=
  List.sum_nonneg (fun x hx => by
    obtain ⟨p, hp, rfl⟩ := List.mem_map.1 hx
    exact h p hp)

/-- Lower and upper bound for a weighted sum with nonnegative weights and
values in [1, 5]. -/
theorem weighted_sum_bounds {α : Type} (l : List α) (f g : α → ℝ)
    (hg : ∀ p ∈ l, 0 ≤ g p) (hf : ∀ p ∈ l, 1 ≤ f p ∧ f p ≤ 5) :
    (l.map g).sum ≤ (l.map (fun p => f p * g p)).sum ∧
      (l.map (fun p => f p * g p)).sum ≤ 5 * (l.map g).sum := by
  induction l with
  | nil => simp
  | cons a l ih =>
    have ha := hf a (List.mem_cons_self a l)
    have hga := hg a (List.mem_cons_self a l)
    have ihh := ih (fun p hp => hg p (List.mem_cons_of_mem a hp))
      (fun p hp => hf p (List.mem_cons_of_mem a hp))
    simp only [List.map_cons, List.sum_cons]
    constructor
    · nlinarith [ihh.1]
    · nlinarith [ihh.2]

/-- pyRound maps [1, 5] into [1, 5]. -/
theorem pyRound_bounds {x : ℝ} (h1 : 1 ≤ x) (h5 : x ≤ 5) :
    1 ≤ pyRound x ∧ pyRound x ≤ 5 := by
  have hf1 : (1 : ℤ) ≤ ⌊x⌋ := Int.le_floor.2 (by exact_mod_cast h1)
  have hf5 : ⌊x⌋ ≤ 5 := by
    have h' := Int.floor_mono h5
    rwa [show ⌊(5 : ℝ)⌋ = 5 by norm_num] at h'
  have hfl := Int.floor_le x
  unfold pyRound
  split_ifs with hA hB hC
  · exact ⟨hf1, hf5⟩
  · have hr : (⌊x⌋ : ℝ) < 5 := by linarith
    have h4 : ⌊x⌋ < 5 := by exact_mod_cast hr
    exact ⟨by omega, by omega⟩
  · exact ⟨hf1, hf5⟩
  · have heq : x - ⌊x⌋ = 1 / 2 := le_antisymm (not_lt.1 hB) (not_lt.1 hA)
    have hr : (⌊x⌋ : ℝ) ≤ 5 - 1 / 2 := by linarith
    have h4 : (⌊x⌋ : ℝ) < 5 := hr.trans_lt (by norm_num)
    have h4i : ⌊x⌋ < 5 := by exact_mod_cast h4
    exact ⟨by omega, by omega⟩

/-- Dot products of componentwise nonnegative lists are nonnegative. -/
theorem dotL_nonneg : ∀ u v : List ℝ,
    (∀ a ∈ u, 0 ≤ a) → (∀ b ∈ v, 0 ≤ b) → 0 ≤ dotL u v := by
  intro u
  induction u with
  | nil => intro v _ _; simp [dotL]
  | cons a u ih =>
    intro v hu hv
    cases v with
    | nil => simp [dotL]
    | cons b v =>
      have h1 : 0 ≤ a * b :=
        mul_nonneg (hu a (List.mem_cons_self a u)) (hv b (List.mem_cons_self b v))
      have h2 := ih v (fun x hx => hu x (List.mem_cons_of_mem a hx))
        (fun y hy => hv y (List.mem_cons_of_mem b hy))
      simp only [dotL, List.zipWith_cons_cons, List.sum_cons] at h2 ⊢
      linarith

/-- The cosine similarity of two positive rating profiles is nonnegative. -/
theorem simCos_nonneg (rm : ℕ → ℕ → ℕ) (lastYi a b : ℕ) :
    0 ≤ simCos rm lastYi a b := by
  rw [simCos]
  split_ifs with h
  · exact le_refl 0
  · rw [cosineDist]
    have hd : 0 ≤ dotL ((Yab rm lastYi a b).map fun y => (rm a y : ℝ))
        ((Yab rm lastYi a b).map fun y => (rm b y : ℝ)) :=
      dotL_nonneg _ _
        (by
          intro x hx
          obtain ⟨y, _, rfl⟩ := List.mem_map.1 hx
          positivity)
        (by
          intro x hx
          obtain ⟨y, _, rfl⟩ := List.mem_map.1 hx
          positivity)
    have hn1 : 0 ≤ norm2 ((Yab rm lastYi a b).map fun y => (rm a y : ℝ)) :=
      Real.sqrt_nonneg _
    have hn2 : 0 ≤ norm2 ((Yab rm lastYi a b).map fun y => (rm b y : ℝ)) :=
      Real.sqrt_nonneg _
    have hq := div_nonneg hd (mul_nonneg hn1 hn2)
    linarith

/-- Case normal form of AlgoBasicCollaborative.estimate for a user-based
state. -/
theorem basicCollab_estimate_eq (s : AlgoBasicCollaborative) (u0 m0 : ℕ)
    (hub : s.ub = true) :
    s.estimate u0 m0 =
      if (s.simX0 u0 m0).isEmpty then 0
      else if ((s.topK u0 m0).map (fun p => p.2)).sum = 0 then 0
      else pyRound (npAverageW
        ((s.topK u0 m0).map (fun p => (s.rm p.1 m0 : ℝ)))
        ((s.topK u0 m0).map (fun p => p.2))) := by
  rw [AlgoBasicCollaborative.estimate, hub]
  simp only [if_true]

/- ------------------------------------------------------------------
   Claim C4 (plain neighborhood estimate: sentinel cases and range)
   ------------------------------------------------------------------ -/

/-- Claim C4: for every query of the constructed plain neighborhood
predictor (ratings bounded by 5), the estimate is the sentinel 0 when no
candidate x with rating(x, y0) > 0 exists, also the sentinel when the
similarities of the selected top-40 candidates sum to zero, and otherwise it
is exactly the rounded similarity-weighted average of the top-40 candidate
ratings and lies in [1, 5] (in particular it is never the sentinel). -/
theorem basicCollab_estimate_cases (rm : ℕ → ℕ → ℕ) (lastUi lastMi : ℕ)
    (mb : Bool) (u0 m0 : ℕ) (s : AlgoBasicCollaborative)
    (hs : s = AlgoBasicCollaborative.build rm lastUi lastMi mb)
    (hbound : ∀ x y, rm x y ≤ 5) :
    (s.candX m0 = [] → s.estimate u0 m0 = 0) ∧
    (s.candX m0 ≠ [] → ((s.topK u0 m0).map (fun p => p.2)).sum = 0 →
      s.estimate u0 m0 = 0) ∧
    (s.candX m0 ≠ [] → ((s.topK u0 m0).map (fun p => p.2)).sum ≠ 0 →
      s.estimate u0 m0 = pyRound (npAverageW
          ((s.topK u0 m0).map (fun p => (s.rm p.1 m0 : ℝ)))
          ((s.topK u0 m0).map (fun p => p.2))) ∧
        1 ≤ s.estimate u0 m0 ∧ s.estimate u0 m0 ≤ 5) := by
  have hub : s.ub = true := by rw [hs]; rfl
  have hkey := basicCollab_estimate_eq s u0 m0 hub
  refine ⟨?_, ?_, ?_⟩
  · intro hc
    rw [hkey]
    simp [AlgoBasicCollaborative.simX0, hc]
  · intro hc hsum
    have hne : (s.simX0 u0 m0).isEmpty = false := by
      simp [AlgoBasicCollaborative.simX0, hc]
    rw [hkey, hne]
    simp [hsum]
  · intro hc hsum
    have hne : (s.simX0 u0 m0).isEmpty = false := by
      simp [AlgoBasicCollaborative.simX0, hc]
    have hest : s.estimate u0 m0 = pyRound (npAverageW
        ((s.topK u0 m0).map (fun p => (s.rm p.1 m0 : ℝ)))
        ((s.topK u0 m0).map (fun p => p.2))) := by
      rw [hkey, hne]
      simp [hsum]
    -- every member of the top-40 list is a candidate with its simCos weight
    have hmem : ∀ p ∈ s.topK u0 m0,
        p.2 = simCos s.rm s.lastYi u0 p.1 ∧ 0 < s.rm p.1 m0 := by
      intro p hp
      have hp1 : p ∈ (s.simX0 u0 m0).mergeSort (fun a b => decide (b.2 ≤ a.2)) :=
        List.mem_of_mem_take hp
      have hp2 : p ∈ s.simX0 u0 m0 := List.mem_mergeSort.1 hp1
      obtain ⟨x, hx, rfl⟩ := List.mem_map.1 hp2
      refine ⟨rfl, ?_⟩
      have hx2 := (List.mem_filter.1 hx).2
      exact of_decide_eq_true hx2
    have hg : ∀ p ∈ s.topK u0 m0, 0 ≤ (fun p : ℕ × ℝ => p.2) p := by
      intro p hp
      have := (hmem p hp).1
      simp only
      rw [this]
      exact simCos_nonneg _ _ _ _
    have hf : ∀ p ∈ s.topK u0 m0,
        1 ≤ (fun p : ℕ × ℝ => (s.rm p.1 m0 : ℝ)) p ∧
          (fun p : ℕ × ℝ => (s.rm p.1 m0 : ℝ)) p ≤ 5 := by
      intro p hp
      have h0 := (hmem p hp).2
      have h5 : s.rm p.1 m0 ≤ 5 := by rw [hs]; exact hbound m0 p.1
      constructor
      · simp only
        exact_mod_cast h0
      · simp only
        exact_mod_cast h5
    have hW0 : 0 ≤ ((s.topK u0 m0).map (fun p => p.2)).sum :=
      sum_map_nonneg _ _ hg
    have hWpos : 0 < ((s.topK u0 m0).map (fun p => p.2)).sum :=
      lt_of_le_of_ne hW0 (Ne.symm hsum)
    have hb := weighted_sum_bounds (s.topK u0 m0)
      (fun p => (s.rm p.1 m0 : ℝ)) (fun p => p.2) hg hf
    have havg : npAverageW
        ((s.topK u0 m0).map (fun p => (s.rm p.1 m0 : ℝ)))
        ((s.topK u0 m0).map (fun p => p.2)) =
        ((s.topK u0 m0).map (fun p => (s.rm p.1 m0 : ℝ) * p.2)).sum /
          ((s.topK u0 m0).map (fun p => p.2)).sum := by
      rw [npAverageW, zipWith_mul_map_sum]
    have h1le : 1 ≤ npAverageW
        ((s.topK u0 m0).map (fun p => (s.rm p.1 m0 : ℝ)))
        ((s.topK u0 m0).map (fun p => p.2)) := by
      rw [havg, le_div_iff₀ hWpos]
      nlinarith [hb.1]
    have hle5 : npAverageW
        ((s.topK u0 m0).map (fun p => (s.rm p.1 m0 : ℝ)))
        ((s.topK u0 m0).map (fun p => p.2)) ≤ 5 := by
      rw [havg, div_le_iff₀ hWpos]
      nlinarith [hb.2]
    obtain ⟨hr1, hr5⟩ := pyRound_bounds h1le hle5
    rw [hest]
    exact ⟨rfl, hr1, hr5⟩

/-- Claim C4 witness: on the everywhere-unrated fixture there is no
candidate, and the estimate is the sentinel 0. -/
theorem basicCollab_estimate_cases_witness :
    (AlgoBasicCollaborative.build rmFix0 1 1 false).estimate 1 1 = 0 :=
  (basicCollab_estimate_cases rmFix0 1 1 false 1 1
    (AlgoBasicCollaborative.build rmFix0 1 1 false) rfl
    (fun _ _ => Nat.zero_le 5)).1 (by decide)

/- ------------------------------------------------------------------
   Claim C6 (baseline-adjusted neighborhood estimate degrades gracefully)
   ------------------------------------------------------------------ -/

/-- Claim C6: the baseline-adjusted neighborhood estimate equals the bare
baseline when y0 has no rater and when the top-40 similarity weights sum to
zero, and otherwise equals the baseline plus the similarity-weighted average
of the neighbors deviations from their own baselines; it is never set to
the impossible sentinel. -/
theorem nbBaseline_estimate_cases (s : AlgoNeighborhoodWithBaseline)
    (u0 m0 : ℕ) :
    (s.yr (if s.ub then m0 else u0) = [] →
      s.estimate u0 m0 =
        s.getBaseline (if s.ub then u0 else m0) (if s.ub then m0 else u0)) ∧
    (s.yr (if s.ub then m0 else u0) ≠ [] →
      ((s.topK (if s.ub then u0 else m0) (if s.ub then m0 else u0)).map
        (fun p => p.2.1)).sum = 0 →
      s.estimate u0 m0 =
        s.getBaseline (if s.ub then u0 else m0) (if s.ub then m0 else u0)) ∧
    (s.yr (if s.ub then m0 else u0) ≠ [] →
      ((s.topK (if s.ub then u0 else m0) (if s.ub then m0 else u0)).map
        (fun p => p.2.1)).sum ≠ 0 →
      s.estimate u0 m0 =
        s.getBaseline (if s.ub then u0 else m0) (if s.ub then m0 else u0) +
          npAverageW
            ((s.topK (if s.ub then u0 else m0) (if s.ub then m0 else u0)).map
              (fun p => (p.2.2 : ℝ) -
                s.getBaseline p.1 (if s.ub then m0 else u0)))
            ((s.topK (if s.ub then u0 else m0) (if s.ub then m0 else u0)).map
              (fun p => p.2.1))) := by
  refine ⟨?_, ?_, ?_⟩
  · intro h
    rw [AlgoNeighborhoodWithBaseline.estimate]
    simp [AlgoNeighborhoodWithBaseline.simX0, h]
  · intro h hsum
    have hne : (s.simX0 (if s.ub then u0 else m0)
        (if s.ub then m0 else u0)).isEmpty = false := by
      simp [AlgoNeighborhoodWithBaseline.simX0, h]
    rw [AlgoNeighborhoodWithBaseline.estimate]
    simp only [hne, Bool.false_eq_true, if_false]
    simp [hsum]
  · intro h hsum
    have hne : (s.simX0 (if s.ub then u0 else m0)
        (if s.ub then m0 else u0)).isEmpty = false := by
      simp [AlgoNeighborhoodWithBaseline.simX0, h]
    rw [AlgoNeighborhoodWithBaseline.estimate]
    simp only [hne, Bool.false_eq_true, if_false]
    simp [hsum]

/-- Claim C6 witness: on a state whose adjacency list is empty, the estimate
at (1, 1) is exactly the baseline. -/
theorem nbBaseline_estimate_cases_witness :
    nbFix.estimate 1 1 =
      nbFix.getBaseline (if nbFix.ub then 1 else 1) (if nbFix.ub then 1 else 1) :=
  (nbBaseline_estimate_cases nbFix 1 1).1 rfl

/- ------------------------------------------------------------------
   Claim C10 (geometric analogy: acceptance rule and final estimate)
   ------------------------------------------------------------------ -/

/-- Claim C10: a sampled trial of the geometric analogy predictor is kept
exactly when the three entities are pairwise distinct, the equation is
solvable, the common support is non-empty (a trial with no common item has
norm inf and is always rejected) and the norm is below 1.5 * sqrt(n); and
the final estimate is 0 when y0 has no rating or no trial was accepted, and
otherwise the rounded unweighted mean of the solved ratings of the accepted
trials. -/
theorem gilles_acceptance_and_estimate (s : AlgoGilles)
    (xa ra xb rb xc rc x0 : ℕ)
    (samples : List ((ℕ × ℕ) × (ℕ × ℕ) × (ℕ × ℕ))) (u0 m0 : ℕ) :
    (s.trialCandidate x0 ((xa, ra), (xb, rb), (xc, rc)) ≠ none ↔
      (xa ≠ xb ∧ xb ≠ xc ∧ xa ≠ xc ∧
        AlgoUsingAnalogy.isSolvable ra rb rc = true ∧
        s.Yabc0 xa xb xc x0 ≠ [] ∧
        s.pNorm xa xb xc x0 <
          1.5 * Real.sqrt ((s.Yabc0 xa xb xc x0).length : ℝ))) ∧
    (s.yr (if s.ub then m0 else u0) = [] → s.estimate samples u0 m0 = 0) ∧
    (s.yr (if s.ub then m0 else u0) ≠ [] →
      samples.filterMap (s.trialCandidate (if s.ub then u0 else m0)) = [] →
      s.estimate samples u0 m0 = 0) ∧
    (s.yr (if s.ub then m0 else u0) ≠ [] →
      samples.filterMap (s.trialCandidate (if s.ub then u0 else m0)) ≠ [] →
      s.estimate samples u0 m0 = pyRound
        (((samples.filterMap
            (s.trialCandidate (if s.ub then u0 else m0))).map
          (fun c => (c.1 : ℝ))).sum /
          ((samples.filterMap
            (s.trialCandidate (if s.ub then u0 else m0))).length : ℝ))) := by
  refine ⟨?_, ?_, ?_, ?_⟩
  · by_cases hcond : xa ≠ xb ∧ xb ≠ xc ∧ xa ≠ xc ∧
        AlgoUsingAnalogy.isSolvable ra rb rc = true
    · obtain ⟨h1, h2, h3, h4⟩ := hcond
      by_cases hY : (s.Yabc0 xa xb xc x0).isEmpty
      · have hnil : s.Yabc0 xa xb xc x0 = [] := by
          rwa [List.isEmpty_iff] at hY
        rw [AlgoGilles.trialCandidate]
        simp [AlgoGilles.getParall, hY, h1, h2, h3, h4, hnil]
      · have hnnil : s.Yabc0 xa xb xc x0 ≠ [] := by
          rw [List.isEmpty_iff] at hY
          exact hY
        rw [AlgoGilles.trialCandidate]
        simp only [AlgoGilles.getParall, hY, Bool.false_eq_true, if_false]
        by_cases hlt : s.pNorm xa xb xc x0 <
            1.5 * Real.sqrt ((s.Yabc0 xa xb xc x0).length : ℝ)
        · simp [h1, h2, h3, h4, hlt, hnnil]
        · simp [h1, h2, h3, h4, hlt]
    · have hnone : s.trialCandidate x0 ((xa, ra), (xb, rb), (xc, rc)) = none := by
        rw [AlgoGilles.trialCandidate]
        exact if_neg hcond
      constructor
      · intro hx
        exact absurd hnone hx
      · intro hx
        exact (hcond ⟨hx.1, hx.2.1, hx.2.2.1, hx.2.2.2.1⟩).elim
  · intro h
    rw [AlgoGilles.estimate]
    simp [h]
  · intro h hC
    have hne : (s.yr (if s.ub then m0 else u0)).isEmpty = false := by
      simp [h]
    rw [AlgoGilles.estimate]
    simp only [hne, Bool.false_eq_true, if_false]
    simp [hC]
  · intro h hC
    have hne : (s.yr (if s.ub then m0 else u0)).isEmpty = false := by
      simp [h]
    rw [AlgoGilles.estimate]
    simp only [hne, Bool.false_eq_true, if_false]
    have hce : (samples.filterMap
        (s.trialCandidate (if s.ub then u0 else m0))).isEmpty = false := by
      simp [hC]
    simp only [hce, Bool.false_eq_true, if_false]

/-- Claim C10 witness: on a state with an empty adjacency list the estimate
is the impossible sentinel 0. -/
theorem gilles_acceptance_and_estimate_witness :
    gillesFix.estimate [] 1 1 = 0 :=
  (gilles_acceptance_and_estimate gillesFix 1 1 1 1 1 1 1 [] 1 1).2.1 rfl
